import Mathlib

/-!
Shallow embedding of the rtop telemetry collector and renderer
(src/data/collector.rs, src/app.rs, src/components/cpu.rs) together with
proofs about its documented behaviour.

Modelling conventions:
* Rust `u64`/`usize` counters are modelled as `Nat`.
* Rust `f32`/`f64` arithmetic is modelled as exact rational arithmetic (`ℚ`);
  decimal float literals are taken at their decimal value.
* `f64::round` (round half away from zero) agrees with Mathlib `round`
  (round half up) on the non-negative values that occur here.
* A cast `as u64` of a non-negative float is truncation, i.e. `Int.toNat ∘ Int.floor`.
* `VecDeque` ring buffers are modelled as `List` (front = oldest element).
* `HashMap` state is modelled as association lists / `List.lookup`.
-/

namespace Rtop

/-- Rust `x.clamp(lo, hi)` on rationals: `if x < lo { lo } else if x > hi
{ hi } else { x }` (callers always pass `lo ≤ hi`). -/
def clampQ (x lo hi : ℚ) : ℚ := if x < lo then lo else if hi < x then hi else x

theorem clampQ_le (x lo hi : ℚ) (h : lo ≤ hi) : clampQ x lo hi ≤ hi := by
  unfold clampQ
  split
  · exact h
  · split
    · exact le_refl hi
    · exact le_of_not_lt (by assumption)

theorem le_clampQ (x lo hi : ℚ) (h : lo ≤ hi) : lo ≤ clampQ x lo hi := by
  unfold clampQ
  split
  · exact le_refl lo
  · split
    · exact h
    · exact le_of_not_lt (by assumption)

/-- Rust `f32::abs` on rationals. -/
def absQ (x : ℚ) : ℚ := if x < 0 then -x else x

/-! ### History rings (`DataCollector::push_history_point`, collector.rs:723-728)

`push_back(value)` followed by popping the front while the length exceeds
`HISTORY_LEN = 120`. -/

/-- Capacity of every history ring (`DataCollector::HISTORY_LEN`). -/
def HISTORY_LEN : Nat := 120

/-- `DataCollector::push_history_point`: append at the back, then drop from the
front while the length exceeds `HISTORY_LEN`. -/
def push_history_point {α : Type} (queue : List α) (value : α) : List α :=
  (queue ++ [value]).drop ((queue ++ [value]).length - HISTORY_LEN)

/-- The youngest `HISTORY_LEN` elements of a list, in order. -/
def lastWindow {α : Type} (l : List α) : List α := l.drop (l.length - HISTORY_LEN)

theorem push_history_point_length {α : Type} (q : List α) (v : α) :
    (push_history_point q v).length = min (q.length + 1) HISTORY_LEN := by
  simp only [push_history_point, List.length_drop, List.length_append,
    List.length_singleton]
  omega

theorem push_history_point_lastWindow {α : Type} (l : List α) (v : α) :
    push_history_point (lastWindow l) v = lastWindow (l ++ [v]) := by
  by_cases h : l.length ≤ HISTORY_LEN
  · have h0 : l.length - HISTORY_LEN = 0 := by omega
    simp [push_history_point, lastWindow, h0]
  · have hH : HISTORY_LEN = 120 := rfl
    have hlen : (l.drop (l.length - HISTORY_LEN)).length = HISTORY_LEN := by
      rw [List.length_drop]
      omega
    unfold push_history_point lastWindow
    rw [List.length_append, List.length_drop, List.length_singleton]
    have h1 : l.length - (l.length - HISTORY_LEN) + 1 - HISTORY_LEN = 1 := by omega
    rw [h1, List.drop_append_of_le_length (by rw [List.length_drop]; omega),
      List.drop_drop,
      List.drop_append_of_le_length
        (by rw [List.length_append, List.length_singleton]; omega),
      List.length_append, List.length_singleton]
    have h2 : l.length - HISTORY_LEN + 1 = l.length + 1 - HISTORY_LEN := by omega
    rw [h2]

theorem foldl_push_history_point {α : Type} (xs : List α) :
    xs.foldl push_history_point [] = lastWindow xs := by
  induction xs using List.reverseRecOn with
  | nil => simp [lastWindow]
  | append_singleton ys y ih =>
      rw [List.foldl_append, List.foldl_cons, List.foldl_nil, ih,
        push_history_point_lastWindow]

/-! ### Network interface rates (`DataCollector::collect`, collector.rs:185-233)

Per interface: `diff = current.saturating_sub(previous)` as `f64`,
`rate = if elapsed > 0.0 then diff / elapsed else 0.0`, published `as u64`
(truncation). The previous-counter map entry is overwritten with the current
reading unconditionally. -/

/-- One published per-second rate (`received_rate as u64` in `collect`). -/
def networkRate (prev current : Nat) (elapsed : ℚ) : Nat :=
  let diff : ℚ := ((current - prev : Nat) : ℚ)
  if 0 < elapsed then (Int.floor (diff / elapsed)).toNat else 0

/-- Rate computation of one interface in one `collect` tick: the pair of
published rates together with the value stored back into
`previous_network_values`.  `prev = none` models an interface absent from the
previous-counter map. -/
def networkRatesStep (prev : Option (Nat × Nat)) (cur : Nat × Nat) (elapsed : ℚ) :
    (Nat × Nat) × (Nat × Nat) :=
  match prev with
  | some p => ((networkRate p.1 cur.1 elapsed, networkRate p.2 cur.2 elapsed), cur)
  | none => ((0, 0), cur)

theorem networkRate_of_le (prev current : Nat) (elapsed : ℚ)
    (hp : prev ≤ current) (he : 0 < elapsed) :
    (networkRate prev current elapsed : ℤ) =
      Int.floor (((current : ℚ) - prev) / elapsed) := by
  have hd : ((current - prev : Nat) : ℚ) = (current : ℚ) - prev := by
    push_cast [Nat.cast_sub hp]
    ring
  have hnum : (0 : ℚ) ≤ (current : ℚ) - prev := by
    have := Nat.cast_le (α := ℚ).mpr hp
    linarith
  have hq : (0 : ℚ) ≤ ((current : ℚ) - prev) / elapsed := div_nonneg hnum he.le
  have hfl : (0 : ℤ) ≤ Int.floor (((current : ℚ) - prev) / elapsed) :=
    Int.floor_nonneg.mpr hq
  simp only [networkRate, if_pos he, hd]
  exact Int.toNat_of_nonneg hfl

theorem networkRate_of_lt (prev current : Nat) (elapsed : ℚ)
    (hp : current < prev) :
    networkRate prev current elapsed = 0 := by
  have hd : (current - prev : Nat) = 0 := by omega
  simp [networkRate, hd]

theorem push_history_point_getLast {α : Type} (q : List α) (v : α) :
    (push_history_point q v).getLast? = some v := by
  unfold push_history_point
  rw [List.length_append, List.length_singleton,
    List.drop_append_of_le_length (by have : HISTORY_LEN = 120 := rfl; omega)]
  rw [List.getLast?_concat]

/-- `networkRate` with an exact one-second interval and a non-decreasing
counter is exactly the counter difference. -/
theorem networkRate_one_second (prev current : Nat) (hp : prev ≤ current) :
    networkRate prev current 1 = current - prev := by
  have h := networkRate_of_le prev current 1 hp (by norm_num)
  rw [div_one] at h
  have hfl : Int.floor ((current : ℚ) - prev) = (current : ℤ) - prev := by
    rw [show ((current : ℚ) - prev) = (((current : ℤ) - prev : ℤ) : ℚ) by push_cast; ring,
      Int.floor_intCast]
  rw [hfl] at h
  omega

/-- Claim C6: every history ring has length at most 120 after any sequence of
pushes from the empty ring; a push onto a full ring of 120 elements drops
exactly the oldest element and appends the new one at the back; after any push
sequence the ring holds exactly the youngest pushed values in push order. -/
theorem C6_history_ring {α : Type} (xs q : List α) (v : α)
    (hq : q.length = HISTORY_LEN) :
    (xs.foldl push_history_point []).length ≤ HISTORY_LEN ∧
    push_history_point q v = q.tail ++ [v] ∧
    xs.foldl push_history_point [] = xs.drop (xs.length - HISTORY_LEN) := by
  have hH : HISTORY_LEN = 120 := rfl
  refine ⟨?_, ?_, ?_⟩
  · rw [foldl_push_history_point]
    unfold lastWindow
    rw [List.length_drop]
    omega
  · unfold push_history_point
    rw [List.length_append, List.length_singleton, hq]
    have h1 : HISTORY_LEN + 1 - HISTORY_LEN = 1 := by omega
    rw [h1, List.drop_append_of_le_length (by omega), List.drop_one]
  · rw [foldl_push_history_point]
    rfl

theorem C6_history_ring_witness :
    push_history_point (List.replicate HISTORY_LEN (0 : Nat)) 7 =
      (List.replicate HISTORY_LEN (0 : Nat)).tail ++ [7] :=
  (C6_history_ring [] (List.replicate HISTORY_LEN 0) 7 (by simp)).2.1

/-- Claim C1 as stated is false at a concrete input: with previous counter 0,
current counter 1 and an elapsed interval of 2 seconds the code publishes the
truncated rate 0, not the exact quotient 1/2. -/
theorem C1_network_rate_counterexample :
    ¬ (((networkRate 0 1 2 : Nat) : ℚ) = ((1 : ℚ) - 0) / 2) := by
  have hfl : Int.floor ((1 : ℚ) / 2) = 0 := by
    rw [Int.floor_eq_zero_iff]
    constructor <;> norm_num
  have h0 : networkRate 0 1 2 = 0 := by
    unfold networkRate
    rw [if_pos (by norm_num : (0 : ℚ) < 2)]
    norm_num [hfl]
  rw [h0]
  norm_num

/-- Claim C1 (amended): for an interface present in two consecutive ticks with
elapsed Δt > 0, the published per-second rate is the truncation (floor) of
(current − previous)/Δt when the counter did not decrease — so it equals the
exact quotient whenever that quotient is whole — and is 0 when the counter
decreased; the stored previous value is replaced by the current reading in
both cases.  For eth0 with previous totals (0,0) and current totals
(1048576, 524288) after exactly 1 second the published rates are
(1048576, 524288) and the network history ring gains that entry at its back. -/
theorem C1_network_rate (prev cur : Nat × Nat) (elapsed : ℚ) (he : 0 < elapsed) :
    (prev.1 ≤ cur.1 →
      (((networkRatesStep (some prev) cur elapsed).1.1 : Nat) : ℤ) =
        Int.floor (((cur.1 : ℚ) - prev.1) / elapsed)) ∧
    (cur.1 < prev.1 → (networkRatesStep (some prev) cur elapsed).1.1 = 0) ∧
    (prev.2 ≤ cur.2 →
      (((networkRatesStep (some prev) cur elapsed).1.2 : Nat) : ℤ) =
        Int.floor (((cur.2 : ℚ) - prev.2) / elapsed)) ∧
    (cur.2 < prev.2 → (networkRatesStep (some prev) cur elapsed).1.2 = 0) ∧
    (networkRatesStep (some prev) cur elapsed).2 = cur ∧
    networkRatesStep (some (0, 0)) (1048576, 524288) 1 =
      ((1048576, 524288), (1048576, 524288)) ∧
    (∀ hist : List (Nat × Nat),
      (push_history_point hist (1048576, 524288)).getLast? =
        some (1048576, 524288)) := by
  refine ⟨fun hp => networkRate_of_le _ _ _ hp he,
          fun hp => networkRate_of_lt _ _ _ hp,
          fun hp => networkRate_of_le _ _ _ hp he,
          fun hp => networkRate_of_lt _ _ _ hp,
          rfl, ?_, fun hist => push_history_point_getLast hist _⟩
  show ((networkRate 0 1048576 1, networkRate 0 524288 1), _) = _
  rw [networkRate_one_second 0 1048576 (by norm_num),
    networkRate_one_second 0 524288 (by norm_num)]

theorem C1_network_rate_witness :
    networkRatesStep (some (0, 0)) (1048576, 524288) 1 =
      ((1048576, 524288), (1048576, 524288)) :=
  (C1_network_rate (0, 0) (1048576, 524288) 1 (by norm_num)).2.2.2.2.2.1

/-- Claim C10: an interface seen for the first time (no entry in the
previous-counter map) is published with received and transmitted rates both
equal to 0 — the rates are always plain numbers, never absent and never
carrying a warm-up note — and its reading is stored as the new previous
value. -/
theorem C10_first_seen_interface_zero_rates (cur : Nat × Nat) (elapsed : ℚ) :
    networkRatesStep none cur elapsed = ((0, 0), cur) := rfl

/-! ### Per-process CPU normalization and smoothing (collector.rs:241-266)

`cpu_normalization = cpu_count.max(1)`, `smoothing_alpha =
(elapsed / 1.5).clamp(0.35, 1.0)`; raw readings above 100 are divided by the
core count before clamping to [0, 100]; the published value is the EMA of the
normalized value against the previous smoothed value for that pid. -/

/-- Normalization of one raw per-process CPU reading. -/
def normalizeProcessCpu (raw : ℚ) (cpuCount : Nat) : ℚ :=
  let c : ℚ := ((max cpuCount 1 : Nat) : ℚ)
  if 100 < raw then clampQ (raw / c) 0 100 else clampQ raw 0 100

/-- `smoothing_alpha = (elapsed as f32 / 1.5).clamp(0.35, 1.0)`. -/
def smoothingAlpha (elapsed : ℚ) : ℚ := clampQ (elapsed / (3 / 2)) (7 / 20) 1

/-- EMA against the previous smoothed value for the pid, when one exists. -/
def smoothProcessCpu (prev : Option ℚ) (normalized alpha : ℚ) : ℚ :=
  match prev with
  | some p => p + (normalized - p) * alpha
  | none => normalized

theorem ema_between (p n a : ℚ) (h0 : 0 ≤ a) (h1 : a ≤ 1) :
    min p n ≤ p + (n - p) * a ∧ p + (n - p) * a ≤ max p n := by
  rcases le_total p n with h | h
  · rw [min_eq_left h, max_eq_right h]
    constructor <;> nlinarith
  · rw [min_eq_right h, max_eq_left h]
    constructor <;> nlinarith

/-- Claim C5: the normalized CPU value is clamp(v, 0, 100) when v ≤ 100 and
clamp(v / c, 0, 100) otherwise; the published value is
prev + (normalized − prev)·α with α = clamp(elapsed / 1.5, 0.35, 1.0) when a
previous smoothed value exists and the normalized value itself otherwise, so
the published value lies in [min(prev, normalized), max(prev, normalized)]. -/
theorem C5_process_cpu (v : ℚ) (c : Nat) (hc : 1 ≤ c) (prev elapsed : ℚ) :
    (v ≤ 100 → normalizeProcessCpu v c = clampQ v 0 100) ∧
    (¬ v ≤ 100 → normalizeProcessCpu v c = clampQ (v / c) 0 100) ∧
    smoothProcessCpu (some prev) (normalizeProcessCpu v c) (smoothingAlpha elapsed) =
      prev + (normalizeProcessCpu v c - prev) * smoothingAlpha elapsed ∧
    smoothProcessCpu none (normalizeProcessCpu v c) (smoothingAlpha elapsed) =
      normalizeProcessCpu v c ∧
    min prev (normalizeProcessCpu v c) ≤
      smoothProcessCpu (some prev) (normalizeProcessCpu v c) (smoothingAlpha elapsed) ∧
    smoothProcessCpu (some prev) (normalizeProcessCpu v c) (smoothingAlpha elapsed) ≤
      max prev (normalizeProcessCpu v c) := by
  have hmax : max c 1 = c := Nat.max_eq_left hc
  have halpha0 : (0 : ℚ) ≤ smoothingAlpha elapsed := by
    have := le_clampQ (elapsed / (3 / 2)) (7 / 20) 1 (by norm_num)
    unfold smoothingAlpha
    linarith
  have halpha1 : smoothingAlpha elapsed ≤ 1 := clampQ_le _ _ _ (by norm_num)
  have hb := ema_between prev (normalizeProcessCpu v c) (smoothingAlpha elapsed)
    halpha0 halpha1
  refine ⟨fun hv => ?_, fun hv => ?_, rfl, rfl, hb.1, hb.2⟩
  · unfold normalizeProcessCpu
    rw [if_neg (not_lt.mpr hv)]
  · unfold normalizeProcessCpu
    rw [if_pos (lt_of_not_le hv), hmax]

theorem C5_process_cpu_witness :
    min 10 (normalizeProcessCpu 250 2) ≤
      smoothProcessCpu (some 10) (normalizeProcessCpu 250 2) (smoothingAlpha 1) :=
  (C5_process_cpu 250 2 (by norm_num) 10 1).2.2.2.2.1

/-! ### Disk deduplication (`DataCollector::collect_disks`, collector.rs:686-721)

Raw disks are keyed by `(name, filesystem, total_space)` in a map; duplicates
keep the minimum `available_space`; zero-total disks are skipped; the values
are sorted by name ascending, then by total_space descending.  The map is
modelled as an association list with in-place update. -/

/-- Raw view of one disk as exposed by the generic OS adapter. -/
structure RawDisk where
  name : String
  filesystem : String
  total_space : Nat
  available_space : Nat
deriving DecidableEq, Repr

/-- `DiskInfo` of snapshot.rs. -/
structure DiskInfo where
  name : String
  total_space : Nat
  available_space : Nat
deriving DecidableEq, Repr

/-- Map key used by `collect_disks`. -/
def diskKey (d : RawDisk) : String × String × Nat :=
  (d.name, d.filesystem, d.total_space)

/-- `by_key.entry(key).and_modify(min).or_insert(info)` on an association
list: the first entry with the key takes the minimum available space,
otherwise the new entry is appended. -/
def updateDisk (key : String × String × Nat) (avail : Nat) (info : DiskInfo) :
    List ((String × String × Nat) × DiskInfo) →
      List ((String × String × Nat) × DiskInfo)
  | [] => [(key, info)]
  | kv :: rest =>
      if kv.1 = key then
        (kv.1, { kv.2 with available_space := min kv.2.available_space avail }) :: rest
      else kv :: updateDisk key avail info rest

/-- One iteration of the `collect_disks` loop. -/
def insertDisk (acc : List ((String × String × Nat) × DiskInfo)) (d : RawDisk) :
    List ((String × String × Nat) × DiskInfo) :=
  if d.total_space = 0 then acc
  else updateDisk (diskKey d) d.available_space
    ⟨d.name, d.total_space, d.available_space⟩ acc

/-- Sort order of `collect_disks`: `a.name.cmp(&b.name).then_with(||
b.total_space.cmp(&a.total_space))` — name ascending, then total space
descending. -/
def diskLE (a b : DiskInfo) : Prop :=
  a.name < b.name ∨ (a.name = b.name ∧ b.total_space ≤ a.total_space)

instance : DecidableRel diskLE := fun a b =>
  inferInstanceAs
    (Decidable (a.name < b.name ∨ (a.name = b.name ∧ b.total_space ≤ a.total_space)))

instance : IsTotal DiskInfo diskLE where
  total a b := by
    rcases lt_trichotomy a.name b.name with h | h | h
    · exact Or.inl (Or.inl h)
    · rcases le_total b.total_space a.total_space with ht | ht
      · exact Or.inl (Or.inr ⟨h, ht⟩)
      · exact Or.inr (Or.inr ⟨h.symm, ht⟩)
    · exact Or.inr (Or.inl h)

instance : IsTrans DiskInfo diskLE where
  trans a b c hab hbc := by
    rcases hab with h1 | ⟨h1, t1⟩ <;> rcases hbc with h2 | ⟨h2, t2⟩
    · exact Or.inl (lt_trans h1 h2)
    · exact Or.inl (h2 ▸ h1)
    · exact Or.inl (h1 ▸ h2)
    · exact Or.inr ⟨h1.trans h2, t2.trans t1⟩

/-- `DataCollector::collect_disks` on the raw disk list of the generic OS
adapter. -/
def collect_disks (raw : List RawDisk) : List DiskInfo :=
  List.insertionSort diskLE ((raw.foldl insertDisk []).map Prod.snd)

/-- Available space recorded in the dedup map for a key, if any. -/
def entryAvail : List ((String × String × Nat) × DiskInfo) →
    (String × String × Nat) → Option Nat
  | [], _ => none
  | kv :: rest, k =>
      if kv.1 = k then some kv.2.available_space else entryAvail rest k

/-- Running minimum used to describe duplicate handling. -/
def minStep (o : Option Nat) (x : Nat) : Option Nat :=
  match o with
  | none => some x
  | some m => some (min m x)

/-- Available spaces contributed to key `k` by a raw disk list. -/
def availsFor (k : String × String × Nat) (l : List RawDisk) : List Nat :=
  l.filterMap (fun d =>
    if diskKey d = k ∧ d.total_space ≠ 0 then some d.available_space else none)

theorem entryAvail_updateDisk_same (acc : List ((String × String × Nat) × DiskInfo))
    (k : String × String × Nat) (a : Nat) (info : DiskInfo)
    (hinfo : info.available_space = a) :
    entryAvail (updateDisk k a info acc) k = minStep (entryAvail acc k) a := by
  induction acc with
  | nil => simp [updateDisk, entryAvail, minStep, hinfo]
  | cons kv rest ih =>
      by_cases hk : kv.1 = k
      · simp [updateDisk, hk, entryAvail, minStep]
      · simp only [updateDisk, if_neg hk, entryAvail, ih]

theorem entryAvail_updateDisk_other (acc : List ((String × String × Nat) × DiskInfo))
    (k k2 : String × String × Nat) (a : Nat) (info : DiskInfo) (hne : k2 ≠ k) :
    entryAvail (updateDisk k a info acc) k2 = entryAvail acc k2 := by
  have hkk2 : ¬ k = k2 := fun h => hne h.symm
  induction acc with
  | nil => simp [updateDisk, entryAvail, hkk2]
  | cons kv rest ih =>
      by_cases hk : kv.1 = k
      · simp [updateDisk, hk, entryAvail, hkk2]
      · simp only [updateDisk, if_neg hk, entryAvail, ih]

theorem entryAvail_foldl_insertDisk (l : List RawDisk)
    (acc : List ((String × String × Nat) × DiskInfo)) (k : String × String × Nat) :
    entryAvail (l.foldl insertDisk acc) k =
      (availsFor k l).foldl minStep (entryAvail acc k) := by
  induction l generalizing acc with
  | nil => simp [availsFor]
  | cons d rest ih =>
      rw [List.foldl_cons, ih]
      by_cases h0 : d.total_space = 0
      · have hc : ¬ (diskKey d = k ∧ d.total_space ≠ 0) := fun h => h.2 h0
        simp [availsFor, insertDisk, h0, hc]
      · by_cases hkey : diskKey d = k
        · have hc : diskKey d = k ∧ d.total_space ≠ 0 := ⟨hkey, h0⟩
          simp only [availsFor, List.filterMap_cons, if_pos hc, List.foldl_cons]
          rw [insertDisk, if_neg h0, hkey,
            entryAvail_updateDisk_same acc k d.available_space
              ⟨d.name, d.total_space, d.available_space⟩ rfl]
        · have hc : ¬ (diskKey d = k ∧ d.total_space ≠ 0) := fun h => hkey h.1
          simp only [availsFor, List.filterMap_cons, if_neg hc]
          rw [insertDisk, if_neg h0,
            entryAvail_updateDisk_other acc (diskKey d) k d.available_space
              ⟨d.name, d.total_space, d.available_space⟩ (fun h => hkey h.symm)]

theorem mem_updateDisk_total (k : String × String × Nat) (a : Nat) (info : DiskInfo) :
    ∀ acc : List ((String × String × Nat) × DiskInfo),
      (∀ kv ∈ acc, kv.2.total_space ≠ 0) → info.total_space ≠ 0 →
      ∀ kv ∈ updateDisk k a info acc, kv.2.total_space ≠ 0 := by
  intro acc
  induction acc with
  | nil =>
      intro _ hinfo kv hkv
      simp only [updateDisk, List.mem_singleton] at hkv
      rw [hkv]
      exact hinfo
  | cons kv0 rest ih =>
      intro hacc hinfo kv hkv
      by_cases hk : kv0.1 = k
      · rw [updateDisk, if_pos hk] at hkv
        rcases List.mem_cons.mp hkv with h | h
        · rw [h]
          exact hacc kv0 (List.mem_cons_self _ _)
        · exact hacc kv (List.mem_cons_of_mem _ h)
      · rw [updateDisk, if_neg hk] at hkv
        rcases List.mem_cons.mp hkv with h | h
        · rw [h]
          exact hacc kv0 (List.mem_cons_self _ _)
        · exact ih (fun kv2 hkv2 => hacc kv2 (List.mem_cons_of_mem _ hkv2)) hinfo kv h

theorem foldl_insertDisk_total (l : List RawDisk) :
    ∀ acc : List ((String × String × Nat) × DiskInfo),
      (∀ kv ∈ acc, kv.2.total_space ≠ 0) →
      ∀ kv ∈ l.foldl insertDisk acc, kv.2.total_space ≠ 0 := by
  induction l with
  | nil => exact fun acc hacc => hacc
  | cons d rest ih =>
      intro acc hacc
      rw [List.foldl_cons]
      apply ih
      intro kv2 hkv2
      by_cases h0 : d.total_space = 0
      · rw [insertDisk, if_pos h0] at hkv2
        exact hacc kv2 hkv2
      · rw [insertDisk, if_neg h0] at hkv2
        exact mem_updateDisk_total (diskKey d) d.available_space
          ⟨d.name, d.total_space, d.available_space⟩ acc hacc h0 kv2 hkv2

/-- Concrete run of `collect_disks` on the example input of the spec. -/
theorem collect_disks_example :
    collect_disks [⟨"/", "ext4", 100, 30⟩, ⟨"/", "ext4", 100, 20⟩,
        ⟨"/home", "ext4", 200, 150⟩] =
      [⟨"/", 100, 20⟩, ⟨"/home", 200, 150⟩] := by
  have hlt : ("/" : String) < "/home" := by
    rw [String.lt_iff_toList_lt]
    decide
  have h12 : diskLE ⟨"/", 100, 20⟩ ⟨"/home", 200, 150⟩ := Or.inl hlt
  have hfold : ([⟨"/", "ext4", 100, 30⟩, ⟨"/", "ext4", 100, 20⟩,
      ⟨"/home", "ext4", 200, 150⟩] : List RawDisk).foldl insertDisk [] =
      [(("/", "ext4", 100), ⟨"/", 100, 20⟩),
       (("/home", "ext4", 200), ⟨"/home", 200, 150⟩)] := by
    decide
  rw [collect_disks, hfold]
  show List.insertionSort diskLE [⟨"/", 100, 20⟩, ⟨"/home", 200, 150⟩] = _
  rw [List.insertionSort, List.insertionSort, List.insertionSort,
    List.orderedInsert, List.orderedInsert, if_pos h12]

/-- Claim C4 as stated is false: on the example input the deduplicated list is
sorted ascending by name, so "/" (a strict byte-wise prefix of "/home") comes
first — the output is not [("/home",200,150), ("/",100,20)]. -/
theorem C4_disk_dedup_counterexample :
    collect_disks [⟨"/", "ext4", 100, 30⟩, ⟨"/", "ext4", 100, 20⟩,
        ⟨"/home", "ext4", 200, 150⟩] ≠
      [⟨"/home", 200, 150⟩, ⟨"/", 100, 20⟩] := by
  rw [collect_disks_example]
  decide

/-- Claim C4 (amended): on the example input the output is exactly
[("/",100,20), ("/home",200,150)] — "/" first, since the sort is ascending by
name first (then descending by total space); duplicates keyed by
(name, filesystem, total_space) keep the minimum available_space (the map
entry for a key is the running minimum of all contributions to that key);
zero-total disks are skipped; the result is always sorted by the
name-ascending/total-descending order. -/
theorem C4_disk_dedup :
    collect_disks [⟨"/", "ext4", 100, 30⟩, ⟨"/", "ext4", 100, 20⟩,
        ⟨"/home", "ext4", 200, 150⟩] =
      [⟨"/", 100, 20⟩, ⟨"/home", 200, 150⟩] ∧
    (∀ raw : List RawDisk, List.Sorted diskLE (collect_disks raw)) ∧
    (∀ raw : List RawDisk, ∀ d ∈ collect_disks raw, d.total_space ≠ 0) ∧
    (∀ raw : List RawDisk, ∀ k, entryAvail (raw.foldl insertDisk []) k =
      (availsFor k raw).foldl minStep none) := by
  refine ⟨collect_disks_example, ?_, ?_, ?_⟩
  · intro raw
    exact List.sorted_insertionSort diskLE _
  · intro raw d hd
    have hmem : d ∈ (raw.foldl insertDisk []).map Prod.snd :=
      (List.perm_insertionSort diskLE _).mem_iff.mp hd
    rcases List.mem_map.mp hmem with ⟨kv, hkv, hsnd⟩
    rw [← hsnd]
    exact foldl_insertDisk_total raw [] (by simp) kv hkv
  · intro raw k
    exact entryAvail_foldl_insertDisk raw [] k

/-! ### Battery adapter (`DataCollector::update_battery_info`, collector.rs:950-1101)

On Linux: scan `/sys/class/power_supply/BAT*`; the first battery directory
found is returned with its parsed capacity and status.  If none is found and
`/sys/class/dmi/id/chassis_type` is readable, its value is parsed with
`unwrap_or(0)`; chassis types 3 (Desktop), 8, 9 and 10 (laptop-like) fall
through to `None`, every other value returns `level=0, status="N/A"`. -/

/-- `BatteryInfo` of snapshot.rs. -/
structure BatteryInfo where
  level : Option ℚ
  status : Option String
deriving DecidableEq, Repr

/-- Linux path of `update_battery_info`.  `batteries` lists the parsed
`(capacity, status)` of each `BAT*` directory in scan order; `chassis` is
`some parsed` when `/sys/class/dmi/id/chassis_type` is readable, where
`parsed` is the `u32` parse result of its trimmed content. -/
def update_battery_info (batteries : List (Option ℚ × Option String))
    (chassis : Option (Option Nat)) : Option BatteryInfo :=
  match batteries with
  | b :: _ => some ⟨b.1, b.2⟩
  | [] =>
      match chassis with
      | some parsed =>
          let n := parsed.getD 0
          if n ≠ 3 ∧ n ≠ 8 ∧ n ≠ 9 ∧ n ≠ 10 then some ⟨some 0, some "N/A"⟩
          else none
      | none => none

/-- Claim C9 as stated is false at a concrete input: chassis type 3 (Desktop)
is not in {8, 9, 10}, yet with no battery directory the adapter returns
`None`, not `level=0, status="N/A"` — the code also excludes type 3. -/
theorem C9_battery_counterexample :
    update_battery_info [] (some (some 3)) = none ∧
    update_battery_info [] (some (some 3)) ≠ some ⟨some 0, some "N/A"⟩ := by
  exact ⟨rfl, fun h => Option.noConfusion h⟩

/-- Claim C9 (amended): on Linux, when no `BAT*` battery directory is found
and `/sys/class/dmi/id/chassis_type` is readable with a parsed value not in
{3, 8, 9, 10} (unparseable content counting as 0), the battery adapter
returns a BatteryInfo with level = 0 and status = "N/A" rather than
absence. -/
theorem C9_battery (parsed : Option Nat) (n : Nat) (hn : parsed.getD 0 = n)
    (h3 : n ≠ 3) (h8 : n ≠ 8) (h9 : n ≠ 9) (h10 : n ≠ 10) :
    update_battery_info [] (some parsed) = some ⟨some 0, some "N/A"⟩ := by
  simp only [update_battery_info, hn]
  rw [if_pos ⟨h3, h8, h9, h10⟩]

theorem C9_battery_witness :
    update_battery_info [] (some (some 4)) = some ⟨some 0, some "N/A"⟩ :=
  C9_battery (some 4) 4 rfl (by norm_num) (by norm_num) (by norm_num) (by norm_num)

/-! ### RAPL power derivation (collector.rs:1771-1832 and 1879-1940)

`get_cpu_power_consumption` iterates candidate energy paths; each parsed
reading replaces the stored `(previous_rapl_energy, previous_rapl_time)` and,
when a previous reading exists and `0 < Δt ≤ 10`, derives
`W = Δenergy/Δt/1e6`, returning it only when `0 ≤ W ≤ 500`.
`get_intel_gpu_power_consumption_with_note` does the same for one cached path
with window `[0, 150]`, note "Outlier" outside the window, note "Reset" with a
baseline update when the counter decreased, and note "Warmup" on the first
sample.  (Path discovery and read errors — "No RAPL", "No perm", "Invalid",
"Unreadable" — precede this logic and are not modelled.) -/

/-- The CPU RAPL loop over candidate paths: each element of `readings` is the
parsed `(energy_uj, time)` of one path (`none` when the path is missing or
unparseable); the state is `(previous_rapl_energy, previous_rapl_time)`. -/
def cpuPowerLoop : List (Option (ℚ × ℚ)) → Option ℚ × Option ℚ →
    Option ℚ × (Option ℚ × Option ℚ)
  | [], state => (none, state)
  | none :: rest, state => cpuPowerLoop rest state
  | some (e, t) :: rest, state =>
      match state with
      | (some pe, some pt) =>
          let td := t - pt
          if 0 < td ∧ td ≤ 10 then
            let w := (e - pe) / td / 1000000
            if 0 ≤ w ∧ w ≤ 500 then (some w, (some e, some t))
            else cpuPowerLoop rest (some e, some t)
          else cpuPowerLoop rest (some e, some t)
      | _ => cpuPowerLoop rest (some e, some t)

/-- One tick of the Intel GPU RAPL derivation after a successful read of
`energy_uj = e` at time `t`, given the stored previous energy/time. -/
def intelGpuPowerStep (prevE prevT : Option ℚ) (e t : ℚ) :
    (Option ℚ × Option String) × (Option ℚ × Option ℚ) :=
  match prevE, prevT with
  | some pe, some pt =>
      let td := t - pt
      if 0 < td ∧ td ≤ 10 then
        if pe ≤ e then
          let w := (e - pe) / td / 1000000
          if 0 ≤ w ∧ w ≤ 150 then ((some w, none), (some e, some t))
          else ((none, some "Outlier"), (some e, some t))
        else ((none, some "Reset"), (some e, some t))
      else ((none, some "Warmup"), (some e, some t))
  | _, _ => ((none, some "Warmup"), (some e, some t))

theorem cpuPowerLoop_window (readings : List (Option (ℚ × ℚ))) :
    ∀ state w, (cpuPowerLoop readings state).1 = some w → 0 ≤ w ∧ w ≤ 500 := by
  induction readings with
  | nil =>
      intro state w h
      simp [cpuPowerLoop] at h
  | cons r rest ih =>
      intro state w h
      match r with
      | none => exact ih state w h
      | some (e, t) =>
          match state with
          | (some pe, some pt) =>
              rw [cpuPowerLoop] at h
              by_cases h1 : 0 < t - pt ∧ t - pt ≤ 10
              · rw [if_pos h1] at h
                by_cases h2 : 0 ≤ (e - pe) / (t - pt) / 1000000 ∧
                    (e - pe) / (t - pt) / 1000000 ≤ 500
                · rw [if_pos h2] at h
                  simp only [Option.some.injEq] at h
                  exact h ▸ h2
                · rw [if_neg h2] at h
                  exact ih _ w h
              · rw [if_neg h1] at h
                exact ih _ w h
          | (some pe, none) => exact ih _ w h
          | (none, pt) => exact ih _ w h

/-- Claim C7: CPU RAPL power is returned only when the derived watts lie in
[0, 500]; Intel GPU RAPL power is returned only when the derived watts lie in
[0, 150]; an in-window-time sample whose derived watts exceed 150 is rejected
with note "Outlier"; a decreased energy counter yields absence with note
"Reset" while the stored baseline is updated to the new reading; and the
first sample (no stored previous energy/timestamp) yields absence (with note
"Warmup"). -/
theorem C7_rapl_power_window (readings : List (Option (ℚ × ℚ)))
    (st : Option ℚ × Option ℚ) (pe pt e t : ℚ) :
    (∀ w, (cpuPowerLoop readings st).1 = some w → 0 ≤ w ∧ w ≤ 500) ∧
    (∀ w, (intelGpuPowerStep (some pe) (some pt) e t).1.1 = some w →
      0 ≤ w ∧ w ≤ 150) ∧
    (0 < t - pt → t - pt ≤ 10 → pe ≤ e → 150 < (e - pe) / (t - pt) / 1000000 →
      intelGpuPowerStep (some pe) (some pt) e t =
        ((none, some "Outlier"), (some e, some t))) ∧
    (0 < t - pt → t - pt ≤ 10 → e < pe →
      intelGpuPowerStep (some pe) (some pt) e t =
        ((none, some "Reset"), (some e, some t))) ∧
    (∀ e2 t2 : ℚ, intelGpuPowerStep none none e2 t2 =
      ((none, some "Warmup"), (some e2, some t2))) := by
  refine ⟨cpuPowerLoop_window readings st, ?_, ?_, ?_, fun e2 t2 => rfl⟩
  · intro w h
    rw [intelGpuPowerStep] at h
    by_cases h1 : 0 < t - pt ∧ t - pt ≤ 10
    · rw [if_pos h1] at h
      by_cases h2 : pe ≤ e
      · rw [if_pos h2] at h
        by_cases h3 : 0 ≤ (e - pe) / (t - pt) / 1000000 ∧
            (e - pe) / (t - pt) / 1000000 ≤ 150
        · rw [if_pos h3] at h
          simp only [Option.some.injEq] at h
          exact h ▸ h3
        · rw [if_neg h3] at h
          simp at h
      · rw [if_neg h2] at h
        simp at h
    · rw [if_neg h1] at h
      simp at h
  · intro ht1 ht2 hpe hout
    rw [intelGpuPowerStep, if_pos ⟨ht1, ht2⟩, if_pos hpe,
      if_neg (fun hc => absurd hout (not_lt.mpr hc.2))]
  · intro ht1 ht2 hlt
    rw [intelGpuPowerStep, if_pos ⟨ht1, ht2⟩,
      if_neg (not_le.mpr hlt)]

theorem C7_rapl_power_window_witness :
    intelGpuPowerStep (some 0) (some 0) 200000000 1 =
      ((none, some "Outlier"), (some 200000000, some 1)) :=
  (C7_rapl_power_window [] (none, none) 0 0 200000000 1).2.2.1
    (by norm_num) (by norm_num) (by norm_num) (by norm_num)

/-! ### Intel GPU usage derivation (collector.rs:1246-1333, 1336-1386, 1466-1488)

`get_intel_gpu_usage_with_note`: prefer `gpu_busy_percent` (note "Busy");
else derive per-GT RC6 busy percentages, drop samples that contradict the
per-GT frequency estimate (RC6 > 80 while freq < 60, note "RC6f"), take the
minimum when the spread exceeds 60 (note "RC6d"), blend 0.4·RC6 + 0.6·freq
when they diverge by more than 45 and nothing was filtered (note "Hybrid"),
else fall back to "Warmup" / "Freq" / "No data"; finally EMA-smooth with
factor 0.6 against the previous published value. -/

/-- One per-GT RC6 busy sample (`read_multi_gt_rc6_busy_by_gt`):
`idle = clamp(Δrc6/Δt, 0, 1)`, `busy = clamp((1 − idle)·100, 0, 100)`, with
`Δrc6 = current.saturating_sub(previous)` and `Δt > 0` in milliseconds. -/
def rc6Busy (prevMs curMs elapsedMs : Nat) : ℚ :=
  let idle := clampQ (((curMs - prevMs : Nat) : ℚ) / (elapsedMs : ℚ)) 0 1
  clampQ ((1 - idle) * 100) 0 100

/-- `DataCollector::median_usage`: sort, then middle element (odd length) or
mean of the two middle elements (even length). -/
def median_usage (values : List ℚ) : Option ℚ :=
  if values.isEmpty then none
  else
    let sorted := List.insertionSort (· ≤ ·) values
    let mid := values.length / 2
    if values.length % 2 = 0 then
      some ((sorted.getD (mid - 1) 0 + sorted.getD mid 0) / 2)
    else some (sorted.getD mid 0)

/-- `DataCollector::smooth_intel_gpu_usage`: EMA with factor 0.6 against the
previous published value, or the raw value when there is none. -/
def smooth_intel_gpu_usage (prev : Option ℚ) (usage : ℚ) : ℚ :=
  match prev with
  | some p => p + (usage - p) * (3 / 5)
  | none => usage

/-- `DataCollector::get_intel_gpu_usage_with_note`, abstracted over the file
reads: `busyPercent` is the parsed finite `gpu_busy_percent` if readable;
`freqByGt` and `rc6ByGt` are the per-GT results of
`read_intel_gt_freq_usage_by_gt` and `read_multi_gt_rc6_busy_by_gt`;
`rc6Ready` is the accompanying had-samples flag; `hasRc6Paths` says whether
any RC6 paths were discovered; `prevSmoothed` is the stored previous
published usage. -/
def get_intel_gpu_usage_with_note (busyPercent : Option ℚ)
    (freqByGt rc6ByGt : List (String × ℚ)) (rc6Ready hasRc6Paths : Bool)
    (prevSmoothed : Option ℚ) : Option ℚ × Option String :=
  match busyPercent with
  | some raw =>
      (some (smooth_intel_gpu_usage prevSmoothed (clampQ raw 0 100)), some "Busy")
  | none =>
    let freqEstimate := median_usage (freqByGt.map Prod.snd)
    let rc6Result : Option (Option ℚ × Option String) :=
      if rc6ByGt.isEmpty then none
      else
        let contradictory : String × ℚ → Bool := fun gv =>
          match freqByGt.lookup gv.1 with
          | some freq => decide (80 < gv.2) && decide (freq < 60)
          | none => false
        let kept := rc6ByGt.filter (fun gv => ! contradictory gv)
        let filteredAny := decide (kept.length < rc6ByGt.length)
        let samples := if kept.isEmpty then rc6ByGt.map Prod.snd
          else kept.map Prod.snd
        match median_usage samples with
        | none => none
        | some u0 =>
            let src0 : String := if filteredAny then "RC6f" else "RC6"
            let sorted := List.insertionSort (· ≤ ·) samples
            let p1 :=
              if 2 ≤ samples.length then
                if 60 < sorted.getD (sorted.length - 1) 0 - sorted.getD 0 0 then
                  (sorted.getD 0 0, ("RC6d" : String))
                else (u0, src0)
              else (u0, src0)
            let p2 :=
              match freqEstimate with
              | some freq =>
                  if (! filteredAny) && decide (45 < absQ (p1.1 - freq)) then
                    (clampQ (p1.1 * (2 / 5) + freq * (3 / 5)) 0 100,
                      ("Hybrid" : String))
                  else p1
              | none => p1
            some (some (smooth_intel_gpu_usage prevSmoothed p2.1), some p2.2)
    match rc6Result with
    | some r => r
    | none =>
        if (! rc6Ready) && hasRc6Paths then (none, some "Warmup")
        else
          match freqEstimate with
          | some f =>
              (some (smooth_intel_gpu_usage prevSmoothed (clampQ f 0 100)),
                some "Freq")
          | none => (none, some "No data")

/-- Claim C3: with two GTs and no gpu_busy_percent file, gt0 advancing its
RC6 counter by 50 ms over a 100 ms interval (busy 50) and gt1 by 10 ms over
100 ms (busy 90) while gt1's frequency estimate is 40, the gt1 sample is
dropped as contradictory (RC6 > 80 while freq < 60) and, with no prior
smoothed value, the published usage is exactly 50 with note "RC6f". -/
theorem C3_intel_rc6_contradiction :
    get_intel_gpu_usage_with_note none [("gt1", 40)]
      [("gt0", rc6Busy 0 50 100), ("gt1", rc6Busy 0 10 100)] true true none =
      (some 50, some "RC6f") := by
  have h0 : rc6Busy 0 50 100 = 50 := by norm_num [rc6Busy, clampQ]
  have h1 : rc6Busy 0 10 100 = 90 := by norm_num [rc6Busy, clampQ]
  have hs : (("gt0" : String) == "gt1") = false := by decide
  have hs2 : (("gt1" : String) == "gt1") = true := by decide
  rw [h0, h1]
  norm_num [get_intel_gpu_usage_with_note, median_usage,
    smooth_intel_gpu_usage, List.lookup, List.filter, List.insertionSort,
    List.orderedInsert, absQ, clampQ, hs, hs2]

/-! ### Snapshot model and interpolation (snapshot.rs, app.rs:199-280)

`App::interpolate_snapshots` starts from a clone of the target snapshot (so
every non-lerped field is the target value), then lerps `global_cpu_usage`
(f32 lerp with a clamped factor), `used_memory` and `used_swap` (f64 lerp,
rounded, factor not clamped), and for each GPU index below
min(|last|, |target|, 8) the fields `usage`, `temp` and `memory_used` when
present on both sides. -/

/-- `ColorScheme` of snapshot.rs. -/
inductive ColorScheme
  | Default | Dark | Light | Monochrome | Nord | SolarizedDark
  | SolarizedLight | Gruvbox | Rtop
deriving DecidableEq, Repr

/-- `ProcessSortBy` of snapshot.rs. -/
inductive ProcessSortBy
  | CpuUsage | Memory | Pid | Name
deriving DecidableEq, Repr

/-- `ChartType` of snapshot.rs. -/
inductive ChartType
  | CpuUsage | MemoryUsage | NetworkUsage | DiskUsage
deriving DecidableEq, Repr

/-- `ProcessInfo` of snapshot.rs. -/
structure ProcessInfo where
  pid : Nat
  name : String
  memory : Nat
  cpu_usage : ℚ
  disk_usage : Nat
  parent_pid : Option Nat
  cmd : List String
  exe : Option String
  root : Option String
  cwd : Option String
  status : String
deriving DecidableEq, Repr

/-- `NetworkInfo` of snapshot.rs. -/
structure NetworkInfo where
  name : String
  total_received : Nat
  total_transmitted : Nat
  received_per_sec : Nat
  transmitted_per_sec : Nat
deriving DecidableEq, Repr

/-- `TemperatureInfo` of snapshot.rs. -/
structure TemperatureInfo where
  label : String
  temperature : ℚ
deriving DecidableEq, Repr

/-- `GpuInfo` of snapshot.rs. -/
structure GpuInfo where
  name : String
  vendor : String
  temp : Option ℚ
  usage : Option ℚ
  usage_note : Option String
  memory_used : Option Nat
  memory_total : Option Nat
  power_usage : Option ℚ
  temp_note : Option String
  power_note : Option String
  memory_note : Option String
deriving DecidableEq, Repr

/-- `SystemSnapshot` of snapshot.rs. -/
structure SystemSnapshot where
  global_cpu_usage : ℚ
  used_memory : Nat
  total_memory : Nat
  used_swap : Nat
  total_swap : Nat
  cpu_count : Nat
  cached_memory : Nat
  cpu_history : List (List ℚ)
  memory_history : List (Nat × Nat)
  swap_history : List (Nat × Nat)
  network_interfaces : List (String × Nat × Nat)
  selected_network_interface : Option String
  cpu_frequencies : List Nat
  network_history : List (Nat × Nat)
  disk_usage_history : List (List (Nat × Nat))
  temperature_sensors : List TemperatureInfo
  gpus : List GpuInfo
  battery_info : Option BatteryInfo
  processes : List ProcessInfo
  disks : List DiskInfo
  networks : List NetworkInfo
  hostname : String
  uptime : String
  load_avg : String
  process_sort_by : ProcessSortBy
  chart_type : ChartType
  color_scheme : ColorScheme
  auto_update : Bool
  update_interval : Nat
  show_colors : Bool
  show_graphs : Bool
  cpu_power : Option ℚ
  cpu_name : String

/-- `App::lerp` (f32): `start + (end - start) * factor.clamp(0.0, 1.0)`. -/
def lerp (start endv factor : ℚ) : ℚ :=
  start + (endv - start) * clampQ factor 0 1

/-- `App::lerp_u64` (f64, unclamped factor):
`(start + (end - start) * factor).round() as u64`. -/
def lerpU64 (start endv : Nat) (factor : ℚ) : Nat :=
  (round ((start : ℚ) + ((endv : ℚ) - start) * factor)).toNat

/-- The per-GPU blend of `interpolate_snapshots`: lerp `usage`, `temp` and
`memory_used` when present on both sides, otherwise keep the target value. -/
def blendGpu (gl g2 : GpuInfo) (f : ℚ) : GpuInfo :=
  { g2 with
    usage :=
      match gl.usage, g2.usage with
      | some a, some b => some (lerp a b f)
      | _, _ => g2.usage,
    temp :=
      match gl.temp, g2.temp with
      | some a, some b => some (lerp a b f)
      | _, _ => g2.temp,
    memory_used :=
      match gl.memory_used, g2.memory_used with
      | some a, some b => some (lerpU64 a b f)
      | _, _ => g2.memory_used }

/-- The GPU loop of `interpolate_snapshots`: indices below
min(|last|, |target|, 8) are blended, the rest keep the target entry. -/
def interpolateGpus (lastG targetG : List GpuInfo) (f : ℚ) : List GpuInfo :=
  let n := min (min lastG.length targetG.length) 8
  targetG.mapIdx (fun i g =>
    if i < n then
      match lastG[i]? with
      | some gl => blendGpu gl g f
      | none => g
    else g)

/-- `App::interpolate_snapshots` as a function of the last-displayed snapshot,
the target snapshot and the interpolation factor. -/
def interpolate_snapshots (lastS targetS : SystemSnapshot) (f : ℚ) :
    SystemSnapshot :=
  { targetS with
    global_cpu_usage := lerp lastS.global_cpu_usage targetS.global_cpu_usage f
    used_memory := lerpU64 lastS.used_memory targetS.used_memory f
    used_swap := lerpU64 lastS.used_swap targetS.used_swap f
    gpus := interpolateGpus lastS.gpus targetS.gpus f }

theorem round_mono_q {a b : ℚ} (h : a ≤ b) : round a ≤ round b := by
  rw [round_eq, round_eq]
  exact Int.floor_mono (by linarith)

theorem lerp_between (a b f : ℚ) :
    min a b ≤ lerp a b f ∧ lerp a b f ≤ max a b := by
  have h := ema_between a b (clampQ f 0 1) (le_clampQ f 0 1 (by norm_num))
    (clampQ_le f 0 1 (by norm_num))
  exact h

theorem lerp_one (a b : ℚ) : lerp a b 1 = b := by
  unfold lerp clampQ
  norm_num

theorem lerpU64_between (a b : Nat) (f : ℚ) (h0 : 0 ≤ f) (h1 : f ≤ 1) :
    min a b ≤ lerpU64 a b f ∧ lerpU64 a b f ≤ max a b := by
  have hlo : ((min a b : Nat) : ℚ) ≤ (a : ℚ) + ((b : ℚ) - a) * f := by
    rw [Nat.cast_min]
    rcases le_total (a : ℚ) (b : ℚ) with h | h
    · rw [min_eq_left h]
      nlinarith
    · rw [min_eq_right h]
      nlinarith
  have hhi : (a : ℚ) + ((b : ℚ) - a) * f ≤ ((max a b : Nat) : ℚ) := by
    rw [Nat.cast_max]
    rcases le_total (a : ℚ) (b : ℚ) with h | h
    · rw [max_eq_right h]
      nlinarith
    · rw [max_eq_left h]
      nlinarith
  have h2 : ((min a b : Nat) : ℤ) ≤ round ((a : ℚ) + ((b : ℚ) - a) * f) := by
    have := round_mono_q hlo
    rwa [round_natCast] at this
  have h3 : round ((a : ℚ) + ((b : ℚ) - a) * f) ≤ ((max a b : Nat) : ℤ) := by
    have := round_mono_q hhi
    rwa [round_natCast] at this
  unfold lerpU64
  omega

theorem lerpU64_one (a b : Nat) : lerpU64 a b 1 = b := by
  unfold lerpU64
  rw [show (a : ℚ) + ((b : ℚ) - a) * 1 = ((b : Nat) : ℚ) by ring,
    round_natCast]
  simp

theorem lerpU64_quarter : lerpU64 1000 2000 (1 / 4) = 1250 := by
  unfold lerpU64
  rw [show ((1000 : Nat) : ℚ) + (((2000 : Nat) : ℚ) - (1000 : Nat)) * (1 / 4) =
      ((1250 : Nat) : ℚ) by norm_num, round_natCast]
  simp

theorem mapIdx_id_of {α : Type} (l : List α) (f : Nat → α → α)
    (h : ∀ i a, f i a = a) : l.mapIdx f = l := by
  induction l generalizing f with
  | nil => simp
  | cons a l ih =>
      rw [List.mapIdx_cons, h 0 a, ih (fun i => f (i + 1)) (fun i a => h (i + 1) a)]

theorem blendGpu_one (gl g2 : GpuInfo) : blendGpu gl g2 1 = g2 := by
  rcases g2 with ⟨n, v, t, u, un, mu, mt, pu, tn, pn, mn⟩
  unfold blendGpu
  rcases hu : gl.usage with _ | a <;> rcases t with _ | tv <;>
    rcases u with _ | uv <;> rcases ht : gl.temp with _ | c <;>
    rcases mu with _ | muv <;> rcases hm : gl.memory_used with _ | e <;>
      simp [lerp_one, lerpU64_one]

theorem interpolateGpus_one (lastG targetG : List GpuInfo) :
    interpolateGpus lastG targetG 1 = targetG := by
  unfold interpolateGpus
  apply mapIdx_id_of
  intro i a
  split
  · match h : lastG[i]? with
    | some gl => exact blendGpu_one gl a
    | none => rfl
  · rfl

theorem interpolate_snapshots_one (lastS targetS : SystemSnapshot) :
    interpolate_snapshots lastS targetS 1 = targetS := by
  rcases targetS with ⟨f1, f2, f3, f4, f5, f6, f7, f8, f9, f10, f11, f12, f13,
    f14, f15, f16, f17, f18, f19, f20, f21, f22, f23, f24, f25, f26, f27, f28,
    f29, f30, f31, f32, f33⟩
  simp [interpolate_snapshots, lerp_one, lerpU64_one, interpolateGpus_one]

/-- A neutral snapshot used only to state concrete interpolation examples
(field values mirror `SystemSnapshot::default`). -/
def baseSnapshot : SystemSnapshot where
  global_cpu_usage := 0
  used_memory := 0
  total_memory := 0
  used_swap := 0
  total_swap := 0
  cpu_count := 0
  cached_memory := 0
  cpu_history := [[]]
  memory_history := []
  swap_history := []
  network_interfaces := []
  selected_network_interface := none
  cpu_frequencies := []
  network_history := []
  disk_usage_history := []
  temperature_sensors := []
  gpus := []
  battery_info := none
  processes := []
  disks := []
  networks := []
  hostname := ""
  uptime := ""
  load_avg := ""
  process_sort_by := ProcessSortBy.CpuUsage
  chart_type := ChartType.CpuUsage
  color_scheme := ColorScheme.Default
  auto_update := true
  update_interval := 1000
  show_colors := true
  show_graphs := true
  cpu_power := none
  cpu_name := ""

/-- Claim C2: for every factor in [0, 1] each interpolated scalar
(global_cpu_usage, used_memory, used_swap, and for GPU indices below
min(|last|, |target|, 8) the fields usage, temp and memory_used when present
on both sides) lies between the last-displayed and target values; at factor 1
every lerped field equals the target (the whole snapshot does); every
non-lerped field equals the target snapshot at every factor; and with
last.used_memory = 1000, target.used_memory = 2000 the interpolated
used_memory at factor 0.25 is exactly 1250. -/
theorem C2_interpolation (lastS targetS : SystemSnapshot) (f : ℚ)
    (h0 : 0 ≤ f) (h1 : f ≤ 1) :
    (min lastS.global_cpu_usage targetS.global_cpu_usage ≤
        (interpolate_snapshots lastS targetS f).global_cpu_usage ∧
      (interpolate_snapshots lastS targetS f).global_cpu_usage ≤
        max lastS.global_cpu_usage targetS.global_cpu_usage) ∧
    (min lastS.used_memory targetS.used_memory ≤
        (interpolate_snapshots lastS targetS f).used_memory ∧
      (interpolate_snapshots lastS targetS f).used_memory ≤
        max lastS.used_memory targetS.used_memory) ∧
    (min lastS.used_swap targetS.used_swap ≤
        (interpolate_snapshots lastS targetS f).used_swap ∧
      (interpolate_snapshots lastS targetS f).used_swap ≤
        max lastS.used_swap targetS.used_swap) ∧
    (∀ i gl g2, i < 8 → lastS.gpus[i]? = some gl →
      targetS.gpus[i]? = some g2 →
      (interpolate_snapshots lastS targetS f).gpus[i]? =
        some (blendGpu gl g2 f) ∧
      (∀ a b, gl.usage = some a → g2.usage = some b →
        (blendGpu gl g2 f).usage = some (lerp a b f) ∧
        min a b ≤ lerp a b f ∧ lerp a b f ≤ max a b) ∧
      (∀ a b, gl.temp = some a → g2.temp = some b →
        (blendGpu gl g2 f).temp = some (lerp a b f) ∧
        min a b ≤ lerp a b f ∧ lerp a b f ≤ max a b) ∧
      (∀ a b, gl.memory_used = some a → g2.memory_used = some b →
        (blendGpu gl g2 f).memory_used = some (lerpU64 a b f) ∧
        min a b ≤ lerpU64 a b f ∧ lerpU64 a b f ≤ max a b)) ∧
    interpolate_snapshots lastS targetS 1 = targetS ∧
    ((interpolate_snapshots lastS targetS f).processes = targetS.processes ∧
      (interpolate_snapshots lastS targetS f).disks = targetS.disks ∧
      (interpolate_snapshots lastS targetS f).networks = targetS.networks ∧
      (interpolate_snapshots lastS targetS f).cpu_history =
        targetS.cpu_history ∧
      (interpolate_snapshots lastS targetS f).memory_history =
        targetS.memory_history ∧
      (interpolate_snapshots lastS targetS f).swap_history =
        targetS.swap_history ∧
      (interpolate_snapshots lastS targetS f).network_history =
        targetS.network_history ∧
      (interpolate_snapshots lastS targetS f).disk_usage_history =
        targetS.disk_usage_history ∧
      (interpolate_snapshots lastS targetS f).total_memory =
        targetS.total_memory ∧
      (interpolate_snapshots lastS targetS f).total_swap =
        targetS.total_swap ∧
      (interpolate_snapshots lastS targetS f).cpu_count = targetS.cpu_count ∧
      (interpolate_snapshots lastS targetS f).cached_memory =
        targetS.cached_memory ∧
      (interpolate_snapshots lastS targetS f).cpu_frequencies =
        targetS.cpu_frequencies ∧
      (interpolate_snapshots lastS targetS f).network_interfaces =
        targetS.network_interfaces ∧
      (interpolate_snapshots lastS targetS f).selected_network_interface =
        targetS.selected_network_interface ∧
      (interpolate_snapshots lastS targetS f).temperature_sensors =
        targetS.temperature_sensors ∧
      (interpolate_snapshots lastS targetS f).battery_info =
        targetS.battery_info ∧
      (interpolate_snapshots lastS targetS f).hostname = targetS.hostname ∧
      (interpolate_snapshots lastS targetS f).uptime = targetS.uptime ∧
      (interpolate_snapshots lastS targetS f).load_avg = targetS.load_avg ∧
      (interpolate_snapshots lastS targetS f).process_sort_by =
        targetS.process_sort_by ∧
      (interpolate_snapshots lastS targetS f).chart_type =
        targetS.chart_type ∧
      (interpolate_snapshots lastS targetS f).color_scheme =
        targetS.color_scheme ∧
      (interpolate_snapshots lastS targetS f).auto_update =
        targetS.auto_update ∧
      (interpolate_snapshots lastS targetS f).update_interval =
        targetS.update_interval ∧
      (interpolate_snapshots lastS targetS f).show_colors =
        targetS.show_colors ∧
      (interpolate_snapshots lastS targetS f).show_graphs =
        targetS.show_graphs ∧
      (interpolate_snapshots lastS targetS f).cpu_power = targetS.cpu_power ∧
      (interpolate_snapshots lastS targetS f).cpu_name = targetS.cpu_name) ∧
    (interpolate_snapshots { baseSnapshot with used_memory := 1000 }
        { baseSnapshot with used_memory := 2000 } (1 / 4)).used_memory =
      1250 := by
  refine ⟨lerp_between _ _ _, lerpU64_between _ _ _ h0 h1,
    lerpU64_between _ _ _ h0 h1, ?_, interpolate_snapshots_one lastS targetS,
    ⟨rfl, rfl, rfl, rfl, rfl, rfl, rfl, rfl, rfl, rfl, rfl, rfl, rfl, rfl,
      rfl, rfl, rfl, rfl, rfl, rfl, rfl, rfl, rfl, rfl, rfl, rfl, rfl, rfl,
      rfl⟩, lerpU64_quarter⟩
  intro i gl g2 hi8 hl ht
  have hiL : i < lastS.gpus.length := by
    rcases List.getElem?_eq_some_iff.mp hl with ⟨hlen, _⟩
    exact hlen
  have hiT : i < targetS.gpus.length := by
    rcases List.getElem?_eq_some_iff.mp ht with ⟨hlen, _⟩
    exact hlen
  refine ⟨?_, ?_, ?_, ?_⟩
  · show (interpolateGpus lastS.gpus targetS.gpus f)[i]? = _
    unfold interpolateGpus
    rw [List.getElem?_mapIdx, ht]
    have hn : i < min (min lastS.gpus.length targetS.gpus.length) 8 := by
      omega
    simp only [Option.map_some, if_pos hn, hl]
    rfl
  · intro a b ha hb
    refine ⟨?_, lerp_between a b f⟩
    simp [blendGpu, ha, hb]
  · intro a b ha hb
    refine ⟨?_, lerp_between a b f⟩
    simp [blendGpu, ha, hb]
  · intro a b ha hb
    refine ⟨?_, lerpU64_between a b f h0 h1⟩
    simp [blendGpu, ha, hb]

theorem C2_interpolation_witness :
    (interpolate_snapshots { baseSnapshot with used_memory := 1000 }
        { baseSnapshot with used_memory := 2000 } (1 / 4)).used_memory =
      1250 :=
  (C2_interpolation baseSnapshot baseSnapshot (1 / 4) (by norm_num)
    (by norm_num)).2.2.2.2.2.2

/-! ### Fractional-block bar rendering (`CpuComponent::render_in_area`,
components/cpu.rs:242-272)

`usage_percentage = cpu_usage.min(100.0)`, `total_units = bar_width * 8`,
`filled_units = (usage_percentage / 100.0 * total_units).round()`.  A cell is
a track cell when `filled_units ≤ start_unit`, fully filled when
`filled_units ≥ end_unit`, otherwise partially filled with glyph index
`filled_units − start_unit`. -/

/-- Number of filled sub-units of the bar. -/
def filledUnits (w : Nat) (p : ℚ) : Nat :=
  (round (min p 100 / 100 * ((w * 8 : Nat) : ℚ))).toNat

/-- Sub-units of visual fill shown by cell `i` (8 when fully filled, the
glyph index when partially filled, 0 on the track). -/
def cellUnits (filled i : Nat) : Nat :=
  if filled ≤ 8 * i then 0
  else if 8 * (i + 1) ≤ filled then 8
  else filled - 8 * i

/-- Number of fully-filled cells of the rendered bar. -/
def fullCells (w : Nat) (p : ℚ) : Nat :=
  ((List.range w).filter (fun i => decide (8 * (i + 1) ≤ filledUnits w p))).length

/-- Total visual fill of the bar in sub-units: 8 per fully-filled cell plus
the partial glyph index. -/
def totalVisualFill (w : Nat) (p : ℚ) : Nat :=
  ((List.range w).map (cellUnits (filledUnits w p))).sum

theorem length_filter_range_lt (w m : Nat) :
    ((List.range w).filter (fun i => decide (i < m))).length = min w m := by
  induction w with
  | zero => simp
  | succ n ih =>
      rw [List.range_succ, List.filter_append, List.length_append, ih]
      by_cases h : n < m
      · have hd : decide (n < m) = true := by simpa using h
        simp only [List.filter_singleton, hd, cond_true, List.length_singleton]
        omega
      · have hd : decide (n < m) = false := by simpa using h
        simp only [List.filter_singleton, hd, cond_false, List.length_nil]
        omega

theorem fullCells_eq_min (w : Nat) (p : ℚ) :
    fullCells w p = min w (filledUnits w p / 8) := by
  unfold fullCells
  have hpred : ∀ i ∈ List.range w,
      (decide (8 * (i + 1) ≤ filledUnits w p)) =
        (decide (i < filledUnits w p / 8)) := by
    intro i _
    exact decide_eq_decide.mpr (by omega)
  rw [List.filter_congr hpred, length_filter_range_lt]

theorem filledUnits_le (w : Nat) (p : ℚ) : filledUnits w p ≤ 8 * w := by
  unfold filledUnits
  have hr : min p 100 / 100 * ((w * 8 : Nat) : ℚ) ≤ ((w * 8 : Nat) : ℚ) := by
    have hc : (0 : ℚ) ≤ ((w * 8 : Nat) : ℚ) := Nat.cast_nonneg _
    have h1 : min p 100 ≤ 100 := min_le_right _ _
    nlinarith
  have h2 := round_mono_q hr
  rw [round_natCast] at h2
  omega

theorem filledUnits_mono (w : Nat) (p q : ℚ) (hpq : p ≤ q) :
    filledUnits w p ≤ filledUnits w q := by
  unfold filledUnits
  have hc : (0 : ℚ) ≤ ((w * 8 : Nat) : ℚ) := Nat.cast_nonneg _
  have hm : min p 100 ≤ min q 100 := min_le_min hpq (le_refl _)
  have h1 : min p 100 / 100 * ((w * 8 : Nat) : ℚ) ≤
      min q 100 / 100 * ((w * 8 : Nat) : ℚ) := by
    apply mul_le_mul_of_nonneg_right _ hc
    linarith
  have h2 := round_mono_q h1
  omega

theorem sum_cellUnits_full (w F : Nat) (h : 8 * w ≤ F) :
    ((List.range w).map (cellUnits F)).sum = 8 * w := by
  induction w with
  | zero => simp
  | succ n ih =>
      rw [List.range_succ, List.map_append, List.sum_append, ih (by omega)]
      have hc : cellUnits F n = 8 := by
        unfold cellUnits
        rw [if_neg (by omega), if_pos (by omega)]
      simp only [List.map_cons, List.map_nil, List.sum_cons, List.sum_nil, hc]
      omega

theorem sum_cellUnits (w F : Nat) (h : F ≤ 8 * w) :
    ((List.range w).map (cellUnits F)).sum = F := by
  induction w with
  | zero =>
      simp only [List.range_zero, List.map_nil, List.sum_nil]
      omega
  | succ n ih =>
      rw [List.range_succ, List.map_append, List.sum_append]
      by_cases hf : F ≤ 8 * n
      · rw [ih hf]
        have hc : cellUnits F n = 0 := by
          unfold cellUnits
          rw [if_pos hf]
        simp [hc]
      · rw [sum_cellUnits_full n F (by omega)]
        have hc : cellUnits F n = F - 8 * n := by
          unfold cellUnits
          rw [if_neg hf]
          by_cases h8 : 8 * (n + 1) ≤ F
          · rw [if_pos h8]
            omega
          · rw [if_neg h8]
        simp only [List.map_cons, List.map_nil, List.sum_cons, List.sum_nil, hc]
        omega

theorem filledUnits_one_95 : filledUnits 1 95 = 8 := by
  unfold filledUnits
  have hmin : min (95 : ℚ) 100 = 95 := by norm_num
  rw [hmin, show (95 : ℚ) / 100 * ((1 * 8 : Nat) : ℚ) = 38 / 5 by norm_num,
    round_eq, show (38 : ℚ) / 5 + 1 / 2 = 81 / 10 by norm_num]
  have h8 : Int.floor ((81 : ℚ) / 10) = 8 := by
    rw [Int.floor_eq_iff]
    constructor <;> norm_num
  rw [h8]
  rfl

/-- Claim C8 as stated is false at a concrete input: with width 1 and percent
95 the code rounds 7.6 sub-units up to 8, rendering one fully-filled cell,
while floor(p/100·8w/8) = floor(0.95) = 0. -/
theorem C8_bar_counterexample :
    ¬ ((fullCells 1 95 : ℤ) = Int.floor ((95 : ℚ) / 100 * (8 * 1) / 8)) := by
  have h1 : fullCells 1 95 = 1 := by
    rw [fullCells_eq_min, filledUnits_one_95]
    omega
  have h2 : Int.floor ((95 : ℚ) / 100 * (8 * 1) / 8) = 0 := by
    rw [show (95 : ℚ) / 100 * (8 * 1) / 8 = 19 / 20 by norm_num,
      Int.floor_eq_zero_iff]
    constructor <;> norm_num
  rw [h1, h2]
  norm_num

/-- Claim C8 (amended): for every bar width w ≥ 1 and percent p ∈ [0, 100],
the number of fully-filled cells is ⌊round(p/100·8w)/8⌋ (the rounded filled
sub-unit count, integer-divided by 8) — not ⌊p/100·8w/8⌋, since the sub-unit
count is rounded to nearest before cells are classified — and the total
visual fill (8 sub-units per fully-filled cell plus the partial glyph index)
equals the filled sub-unit count and is monotonically non-decreasing in p. -/
theorem C8_bar_rendering (w : Nat) (p : ℚ) (_hw : 1 ≤ w) (_hp0 : 0 ≤ p)
    (_hp1 : p ≤ 100) :
    fullCells w p = filledUnits w p / 8 ∧
    totalVisualFill w p = filledUnits w p ∧
    (∀ q, p ≤ q → q ≤ 100 → totalVisualFill w p ≤ totalVisualFill w q) := by
  have hle := filledUnits_le w p
  refine ⟨?_, sum_cellUnits w _ hle, ?_⟩
  · rw [fullCells_eq_min]
    omega
  · intro q hpq hq1
    unfold totalVisualFill
    rw [sum_cellUnits w _ hle, sum_cellUnits w _ (filledUnits_le w q)]
    exact filledUnits_mono w p q hpq

theorem C8_bar_rendering_witness :
    fullCells 10 (75 / 2) = filledUnits 10 (75 / 2) / 8 :=
  (C8_bar_rendering 10 (75 / 2) (by norm_num) (by norm_num) (by norm_num)).1

theorem C4_disk_dedup_witness :
    (⟨"/", 100, 20⟩ : DiskInfo).total_space ≠ 0 :=
  C4_disk_dedup.2.2.1
    [⟨"/", "ext4", 100, 30⟩, ⟨"/", "ext4", 100, 20⟩, ⟨"/home", "ext4", 200, 150⟩]
    ⟨"/", 100, 20⟩ (by rw [collect_disks_example]; simp)

end Rtop
